import Mathlib

/-!
Verification of the duplex voice-streaming client (src/App.tsx, src/types.ts).

The development shallowly embeds the core of the client:

* the playback scheduler kept in the refs nextStartTimeRef / sourcesRef and
  mutated by the onmessage handler (App.tsx lines 98-106 and 128-132);
* the onmessage handler itself (audio, transcriptions, turn completion,
  interruption), including the fact that the closure created inside
  handleStartSession captures the React state values isMuted, currentInput
  and currentOutput as they were at the render in which the session was
  started, while the ref cells and functional state updaters always act on
  fresh state;
* the capture callback scriptProcessor.onaudioprocess (lines 80-87);
* the session lifecycle handleStartSession / setupAudio / stopAudio /
  onerror / onclose (lines 25-58 and 134-150), with explicit counters for
  the acquired media streams and audio contexts;
* the sample codec.  The repository imports decode, decodeAudioData and
  createPcmBlob from ./utils/audioHelpers, a file that is not part of the
  sources; the codec definitions below are therefore modelled from the
  spec's description of SampleCodec (scale by 32767 and round to a 16-bit
  little-endian integer, frame with a transport-safe binary-to-text
  encoding; decoding inverts the framing and divides each sample by 32768).

Device time and sample values are modelled as rationals, machine integers
as Int / Nat with explicit reduction modulo 2^16 where the 16-bit wire
format makes overflow observable.
-/

/-! ## Playback scheduler (App.tsx lines 19-20, 98-106, 128-132) -/

/-- One scheduled AudioBufferSourceNode: its scheduled start time on the
output device clock and the duration of the buffer it plays. -/
structure PlaybackUnit where
  start : ℚ
  duration : ℚ
deriving DecidableEq

/-- The scheduler state held in the refs: nextStartTimeRef and the set
sourcesRef of currently scheduled sources. -/
structure SchedulerState where
  nextStartTime : ℚ
  activeUnits : List PlaybackUnit
deriving DecidableEq

/-- Initial scheduler state: nextStartTimeRef starts at 0, sourcesRef empty. -/
def initScheduler : SchedulerState := ⟨0, []⟩

/-- App.tsx lines 98-106: on an inbound audio fragment the handler ratchets
nextStartTime to max(nextStartTime, outCtx.currentTime), starts the new
source at that time, advances nextStartTime by the buffer duration and adds
the source to the active set.  Returns the created unit and the new state. -/
def schedulePlayback (s : SchedulerState) (duration now : ℚ) :
    PlaybackUnit × SchedulerState :=
  let startTime := max s.nextStartTime now
  let u : PlaybackUnit := ⟨startTime, duration⟩
  (u, ⟨startTime + duration, u :: s.activeUnits⟩)

/-- App.tsx lines 128-132: on an interruption event every source in the
active set is stopped, the set is cleared and nextStartTime is reset to 0.
Returns the list of units that were stopped together with the new state. -/
def interruptAll (s : SchedulerState) : List PlaybackUnit × SchedulerState :=
  (s.activeUnits, ⟨0, []⟩)

/-- App.tsx line 103: the ended listener removes a source from the active
set when its playback finishes naturally. -/
def unitEnded (s : SchedulerState) (u : PlaybackUnit) : SchedulerState :=
  ⟨s.nextStartTime, s.activeUnits.erase u⟩

/-- Folding a list of (duration, deviceClockNow) submissions through the
scheduler, as a sequence of inbound audio fragments would. -/
def scheduleAll (s : SchedulerState) (l : List (ℚ × ℚ)) : SchedulerState :=
  l.foldl (fun st p => (schedulePlayback st p.1 p.2).2) s

/-! ## Sample codec

Modelled from the spec: the repository imports the codec (createPcmBlob,
decode, decodeAudioData) from src/utils/audioHelpers, which is not among
the source files.  Following the spec's SampleCodec section: encode maps
each float sample to a 16-bit signed integer by scaling by 32767 and
rounding, emits little-endian byte pairs and applies a transport-safe
binary-to-text framing (base64); decode inverts the framing, and
toAudioBuffer reads the bytes as 16-bit little-endian signed PCM and
divides each sample by 32768. -/

/-- Modelled from the spec: the transport-safe text framing's alphabet
(standard base64). -/
def b64Alphabet : List Char :=
  ['A', 'B', 'C', 'D', 'E', 'F', 'G', 'H', 'I', 'J', 'K', 'L', 'M',
   'N', 'O', 'P', 'Q', 'R', 'S', 'T', 'U', 'V', 'W', 'X', 'Y', 'Z',
   'a', 'b', 'c', 'd', 'e', 'f', 'g', 'h', 'i', 'j', 'k', 'l', 'm',
   'n', 'o', 'p', 'q', 'r', 's', 't', 'u', 'v', 'w', 'x', 'y', 'z',
   '0', '1', '2', '3', '4', '5', '6', '7', '8', '9', '+', '/']

/-- The character standing for one six-bit group. -/
def sextetChar (n : Nat) : Char := b64Alphabet.getD n '='

/-- The six-bit group a framing character stands for (64 when the character
is not in the alphabet). -/
def charSextet (c : Char) : Nat := b64Alphabet.indexOf c

/-- Whether a character belongs to the framing alphabet. -/
def isB64Char (c : Char) : Bool := b64Alphabet.contains c

/-- Modelled from the spec: binary-to-text framing of a byte sequence,
three bytes to four characters, with = padding for a trailing group of one
or two bytes. -/
def encodeB64 : List Nat → List Char
  | [] => []
  | [b1] =>
      [sextetChar (b1 / 4), sextetChar (b1 % 4 * 16), '=', '=']
  | [b1, b2] =>
      [sextetChar (b1 / 4), sextetChar (b1 % 4 * 16 + b2 / 16),
       sextetChar (b2 % 16 * 4), '=']
  | b1 :: b2 :: b3 :: rest =>
      sextetChar (b1 / 4) :: sextetChar (b1 % 4 * 16 + b2 / 16) ::
      sextetChar (b2 % 16 * 4 + b3 / 64) :: sextetChar (b3 % 64) ::
      encodeB64 rest

/-- Modelled from the spec: text-to-binary unframing, the inverse of the
transport framing step only; a malformed chunk (stray character, wrong
length, misplaced padding) fails, as the platform's unframing throws. -/
def decodeB64 : List Char → Except Unit (List Nat)
  | [] => .ok []
  | c1 :: c2 :: c3 :: c4 :: rest =>
      if isB64Char c1 ∧ isB64Char c2 then
        let s1 := charSextet c1
        let s2 := charSextet c2
        if c3 = '=' then
          if c4 = '=' ∧ rest = [] then .ok [s1 * 4 + s2 / 16] else .error ()
        else if isB64Char c3 then
          let s3 := charSextet c3
          if c4 = '=' then
            if rest = [] then .ok [s1 * 4 + s2 / 16, s2 % 16 * 16 + s3 / 4]
            else .error ()
          else if isB64Char c4 then
            match decodeB64 rest with
            | .ok tail =>
                .ok ((s1 * 4 + s2 / 16) :: (s2 % 16 * 16 + s3 / 4) ::
                     (s3 % 4 * 64 + charSextet c4) :: tail)
            | .error e => .error e
          else .error ()
        else .error ()
      else .error ()
  | _ => .error ()

/-- Modelled from the spec: the 16-bit signed integer a sample encodes to,
scaling by 32767 and rounding. -/
def toInt16 (x : ℚ) : ℤ := round (x * 32767)

/-- The two little-endian bytes of a 16-bit integer (two's complement,
reduction modulo 2^16 made explicit). -/
def int16Bytes (n : ℤ) : List Nat :=
  [(n % 65536).toNat % 256, (n % 65536).toNat / 256]

/-- The signed 16-bit integer read from two little-endian bytes. -/
def int16OfBytes (lo hi : Nat) : ℤ :=
  if lo + 256 * hi < 32768 then (lo + 256 * hi : ℤ)
  else (lo + 256 * hi : ℤ) - 65536

/-- Modelled from the spec: toAudioBuffer's sample conversion for one mono
channel, reading consecutive little-endian byte pairs as 16-bit signed PCM
and dividing each sample by 32768. -/
def bytesToSamples : List Nat → List ℚ
  | lo :: hi :: rest => (int16OfBytes lo hi : ℚ) / 32768 :: bytesToSamples rest
  | _ => []

/-- Modelled from the spec: createPcmBlob — scale each sample by 32767,
round, emit little-endian byte pairs, frame as text. -/
def encodeSamples (xs : List ℚ) : List Char :=
  encodeB64 (xs.flatMap fun x => int16Bytes (toInt16 x))

/-- Modelled from the spec: decoding an inbound fragment — unframe the text
(may fail), require whole 16-bit samples, convert each to a float by
dividing by 32768. -/
def decodeChunk (cs : List Char) : Except Unit (List ℚ) :=
  match decodeB64 cs with
  | .ok bs => if bs.length % 2 = 0 then .ok (bytesToSamples bs) else .error ()
  | .error e => .error e

/-- The samples an inbound fragment decodes to (empty on a decode failure);
decode followed by toAudioBuffer's sample conversion. -/
def decodeToSamples (cs : List Char) : List ℚ :=
  match decodeChunk cs with
  | .ok xs => xs
  | .error _ => []

/-! ## The onmessage handler (App.tsx lines 92-132)

The onmessage closure is created inside handleStartSession, so it captures
the React state values of the render in which the session was started:
reading currentInput / currentOutput inside it yields those captured
values for the whole life of the session.  The functional updaters
(setCurrentInput (prev => ...), setHistory (prev => ...)) and the ref
cells (nextStartTimeRef, sourcesRef) act on fresh state. -/

/-- Transcript speaker tag (types.ts: 'user' | 'model'). -/
inductive Speaker
  | user
  | model
deriving DecidableEq

/-- types.ts TranscriptionEntry, without the Math.random id (the id plays
no part in any claim and is the only nondeterministic field). -/
structure TranscriptionEntry where
  type : Speaker
  text : String
  timestamp : ℤ
deriving DecidableEq

/-- One inbound LiveServerMessage as the handler reads it: optional audio
payload, optional input/output transcription fragments, and the
turnComplete / interrupted flags. -/
structure ServerMessage where
  audioData : Option (List Char) := none
  inputTranscription : Option String := none
  outputTranscription : Option String := none
  turnComplete : Bool := false
  interrupted : Bool := false

/-- Connection status (App.tsx line 15). -/
inductive ConnStatus
  | idle
  | connecting
  | connected
  | error
deriving DecidableEq

/-- The session state the onmessage handler can observe or mutate:
connection status, the playback scheduler refs, the two in-progress
transcription accumulators and the finished history. -/
structure SessionView where
  connectionStatus : ConnStatus
  scheduler : SchedulerState
  currentInput : String
  currentOutput : String
  history : List TranscriptionEntry

/-- The React state values captured by the closures created inside
handleStartSession at the render in which the session was started. -/
structure Captures where
  isMuted : Bool
  currentInput : String
  currentOutput : String

/-- App.tsx lines 110-132: the transcription, turn-completion and
interruption part of the onmessage handler.  Accumulation uses functional
updaters (fresh state); the finalized history texts read the captured
currentInput / currentOutput of the start render. -/
def handleMessageRest (cap : Captures) (s : SessionView) (m : ServerMessage)
    (t : ℤ) : SessionView :=
  let s1 :=
    match m.inputTranscription with
    | some txt => { s with currentInput := s.currentInput ++ txt }
    | none => s
  let s2 :=
    match m.outputTranscription with
    | some txt => { s1 with currentOutput := s1.currentOutput ++ txt }
    | none => s1
  let s3 :=
    if m.turnComplete then
      { s2 with
          history := s2.history ++
            [⟨Speaker.user, cap.currentInput, t⟩,
             ⟨Speaker.model, cap.currentOutput, t⟩],
          currentInput := "", currentOutput := "" }
    else s2
  if m.interrupted then { s3 with scheduler := (interruptAll s3.scheduler).2 }
  else s3

/-- App.tsx lines 92-132: the whole onmessage handler.  now is the output
device clock, t the processing time.  On an audio payload the handler first
ratchets nextStartTime to max(nextStartTime, now); a decode failure then
throws out of the async handler, so the rest of this message's processing
is skipped; on success the decoded buffer (duration = sample count at
24 kHz) is scheduled at nextStartTime and the set and nextStartTime are
updated. -/
def handleMessage (cap : Captures) (s : SessionView) (m : ServerMessage)
    (now : ℚ) (t : ℤ) : SessionView :=
  match m.audioData with
  | some chunk =>
      let ratcheted : SchedulerState :=
        ⟨max s.scheduler.nextStartTime now, s.scheduler.activeUnits⟩
      match decodeChunk chunk with
      | .error _ => { s with scheduler := ratcheted }
      | .ok samples =>
          let d : ℚ := (samples.length : ℚ) / 24000
          let u : PlaybackUnit := ⟨ratcheted.nextStartTime, d⟩
          handleMessageRest cap
            { s with
                scheduler :=
                  ⟨ratcheted.nextStartTime + d, u :: ratcheted.activeUnits⟩ }
            m t
  | none => handleMessageRest cap s m t

/-- Inbound messages are delivered one callback at a time, in arrival
order; each invocation of the handler is independent (an exception thrown
by one leaves the platform's event loop intact). -/
def processMessages (cap : Captures) (s : SessionView)
    (l : List (ServerMessage × ℚ × ℤ)) : SessionView :=
  l.foldl (fun st p => handleMessage cap st p.1 p.2.1 p.2.2) s

/-! ## The capture callback (App.tsx lines 80-87, 200-205)

scriptProcessor.onaudioprocess is installed once in onopen; the isMuted it
tests is the value captured at the start render, which the mute button's
setIsMuted cannot change.  The button only flips the React state; it never
touches the stream, the script processor or the audio contexts. -/

/-- App.tsx lines 80-87: one frame-delivery callback.  Returns the encoded
frame forwarded to the outbound channel, or none when the captured mute
flag suppresses it. -/
def onaudioprocess (capturedMuted : Bool) (frame : List ℚ) :
    Option (List Char) :=
  if capturedMuted then none else some (encodeSamples frame)

/-- An event in the life of the capture graph: a platform frame delivery,
or the user toggling the mute button (setIsMuted, App.tsx line 201). -/
inductive MicEvent
  | frame (xs : List ℚ)
  | setMuted (b : Bool)

/-- Capture-side state: the fresh React isMuted value, the stale value the
installed onaudioprocess closure captured, and whether the capture graph
(stream + script processor) is alive. -/
structure MicState where
  isMuted : Bool
  capturedMuted : Bool
  captureAlive : Bool

/-- One capture-side step; returns the new state and the frames forwarded
to the channel by this event. -/
def micStep (s : MicState) : MicEvent → MicState × List (List Char)
  | .frame xs => (s, (onaudioprocess s.capturedMuted xs).toList)
  | .setMuted b => ({ s with isMuted := b }, [])

/-- Running a sequence of capture-side events, collecting every frame
forwarded to the outbound channel. -/
def micRun (s : MicState) : List MicEvent → MicState × List (List Char)
  | [] => (s, [])
  | e :: rest =>
      let (s1, out1) := micStep s e
      let (s2, out2) := micRun s1 rest
      (s2, out1 ++ out2)

/-! ## Session lifecycle (App.tsx lines 25-58, 134-150)

The model counts the acquired media streams and audio-context pairs.
setupAudio creates the two audio contexts and stores them in
audioContextRef before awaiting getUserMedia, so a denied microphone
leaves the contexts open; the catch in handleStartSession only sets the
status to error.  handleStartSession is a toggle on isActive, and isActive
only becomes true in onopen, so a second click while still connecting
runs the whole acquisition again.  onerror and onclose only set the two
state flags. -/

/-- Application lifecycle state: the status flags plus explicit resource
counts — media streams whose tracks have not been stopped, audio-context
pairs not closed — and whether streamRef / audioContextRef currently hold
a live stream / pair (an overwritten ref leaks its old resource, which
then can never be stopped). -/
structure AppState where
  connectionStatus : ConnStatus
  isActive : Bool
  liveStreams : Nat
  openContexts : Nat
  refStreamLive : Bool
  refCtxLive : Bool
  scheduler : SchedulerState

/-- The state before any interaction. -/
def initApp : AppState :=
  ⟨ConnStatus.idle, false, 0, 0, false, false, initScheduler⟩

/-- App.tsx lines 34-45: stop the tracks of the stream in streamRef, close
the context pair in audioContextRef, stop and clear the scheduled sources,
reset nextStartTime. -/
def stopAudio (s : AppState) : AppState :=
  let s1 :=
    if s.refStreamLive then
      { s with liveStreams := s.liveStreams - 1, refStreamLive := false }
    else s
  let s2 :=
    if s1.refCtxLive then
      { s1 with openContexts := s1.openContexts - 1, refCtxLive := false }
    else s1
  { s2 with scheduler := ⟨0, []⟩ }

/-- A lifecycle event: a click of the start/stop button (acquireOk tells
whether getUserMedia succeeds), the channel's onopen, an inbound audio
fragment, the channel's onerror, the channel's onclose. -/
inductive AppEvent
  | startClick (acquireOk : Bool)
  | onopen
  | audioFrag (d now : ℚ)
  | onerror
  | onclose

/-- App.tsx lines 47-58 and 134-150: one lifecycle step.  A click while
isActive stops the session (status idle, stopAudio); otherwise the
status becomes connecting and setupAudio runs: the context pair is created
and stored first, then getUserMedia either yields a stream or throws into
the catch, which only sets status error.  onopen marks the session
connected and active.  onerror / onclose only set the two flags. -/
def appStep (s : AppState) : AppEvent → AppState
  | .startClick acquireOk =>
      if s.isActive then
        stopAudio { s with isActive := false, connectionStatus := .idle }
      else
        let s1 := { s with connectionStatus := .connecting,
                           openContexts := s.openContexts + 1,
                           refCtxLive := true }
        if acquireOk then
          { s1 with liveStreams := s1.liveStreams + 1, refStreamLive := true }
        else
          { s1 with connectionStatus := .error }
  | .onopen => { s with connectionStatus := .connected, isActive := true }
  | .audioFrag d now => { s with scheduler := (schedulePlayback s.scheduler d now).2 }
  | .onerror => { s with connectionStatus := .error, isActive := false }
  | .onclose => { s with connectionStatus := .idle, isActive := false }

/-- Running a sequence of lifecycle events. -/
def appRun (s : AppState) (l : List AppEvent) : AppState :=
  l.foldl appStep s

/-! ## Theorems -/

/-- C1: every submitted buffer is scheduled at max(nextStartTime,
deviceClockNow) and nextStartTime then equals that start plus the buffer's
duration; three buffers of durations d1, d2, d3 all submitted while the
device clock is still at or before 0 start at exactly 0, d1, d1 + d2; and
after a first buffer scheduled at device clock 0, a buffer submitted late,
at device clock d1 + 5, starts at d1 + 5. -/
theorem C1_scheduling_chain (s : SchedulerState) (d now d1 d2 d3 c1 c2 c3 : ℚ)
    (hd1 : 0 ≤ d1) (hd2 : 0 ≤ d2) (hc1 : c1 ≤ 0) (hc2 : c2 ≤ 0) (hc3 : c3 ≤ 0) :
    (schedulePlayback s d now).1.start = max s.nextStartTime now ∧
    (schedulePlayback s d now).2.nextStartTime =
      (schedulePlayback s d now).1.start + d ∧
    (schedulePlayback initScheduler d1 c1).1.start = 0 ∧
    (schedulePlayback (schedulePlayback initScheduler d1 c1).2 d2 c2).1.start
      = d1 ∧
    (schedulePlayback (schedulePlayback
        (schedulePlayback initScheduler d1 c1).2 d2 c2).2 d3 c3).1.start
      = d1 + d2 ∧
    (schedulePlayback initScheduler d1 0).1.start = 0 ∧
    (schedulePlayback (schedulePlayback initScheduler d1 0).2 d2
        (d1 + 5)).1.start = d1 + 5 := by
  have e1 : max (0 : ℚ) c1 = 0 := max_eq_left hc1
  have e2 : max d1 c2 = d1 := max_eq_left (hc2.trans hd1)
  have e3 : max (d1 + d2) c3 = d1 + d2 :=
    max_eq_left (hc3.trans (add_nonneg hd1 hd2))
  have e4 : max (0 : ℚ) 0 = 0 := max_self 0
  have e5 : max d1 (d1 + 5) = d1 + 5 := max_eq_right (by linarith)
  refine ⟨rfl, rfl, ?_, ?_, ?_, ?_, ?_⟩ <;>
    simp [schedulePlayback, initScheduler, e1, e2, e3, e4, e5]

/-- Witness for C1 at concrete inputs d = 1, now = 0, d1 = 2, d2 = 3,
d3 = 1, all submission clocks 0. -/
theorem C1_scheduling_chain_witness :
    (schedulePlayback initScheduler 1 0).1.start
      = max initScheduler.nextStartTime 0 ∧
    (schedulePlayback initScheduler 1 0).2.nextStartTime =
      (schedulePlayback initScheduler 1 0).1.start + 1 ∧
    (schedulePlayback initScheduler 2 0).1.start = 0 ∧
    (schedulePlayback (schedulePlayback initScheduler 2 0).2 3 0).1.start
      = 2 ∧
    (schedulePlayback (schedulePlayback
        (schedulePlayback initScheduler 2 0).2 3 0).2 1 0).1.start
      = 2 + 3 ∧
    (schedulePlayback initScheduler 2 0).1.start = 0 ∧
    (schedulePlayback (schedulePlayback initScheduler 2 0).2 3
        (2 + 5)).1.start = 2 + 5 :=
  C1_scheduling_chain initScheduler 1 0 2 3 1 0 0 0 (by norm_num)
    (by norm_num) (by norm_num) (by norm_num) (by norm_num)

/-- C2: after any sequence of schedulePlayback calls, an interruption stops
exactly the units of the active set, leaves the set empty and resets
nextStartTime to 0; the next buffer scheduled at device clock T (clocks
are nonnegative) then starts at T; and with no active units the
interruption stops nothing. -/
theorem C2_interrupt_clears (l : List (ℚ × ℚ)) (T d : ℚ) (hT : 0 ≤ T) :
    (interruptAll (scheduleAll initScheduler l)).1 =
      (scheduleAll initScheduler l).activeUnits ∧
    (interruptAll (scheduleAll initScheduler l)).2.activeUnits = [] ∧
    (interruptAll (scheduleAll initScheduler l)).2.nextStartTime = 0 ∧
    (schedulePlayback (interruptAll (scheduleAll initScheduler l)).2
        d T).1.start = T ∧
    ((scheduleAll initScheduler l).activeUnits = [] →
      (interruptAll (scheduleAll initScheduler l)).1 = []) := by
  refine ⟨rfl, rfl, rfl, ?_, fun h => h⟩
  show max (0 : ℚ) T = T
  exact max_eq_right hT

/-- Witness for C2: three buffers of durations 2, 3, 1 submitted at clock
0, interruption, then a buffer of duration 1 submitted at device clock 7. -/
theorem C2_interrupt_clears_witness :
    (interruptAll (scheduleAll initScheduler [(2, 0), (3, 0), (1, 0)])).1 =
      (scheduleAll initScheduler [(2, 0), (3, 0), (1, 0)]).activeUnits ∧
    (interruptAll
        (scheduleAll initScheduler [(2, 0), (3, 0), (1, 0)])).2.activeUnits
      = [] ∧
    (interruptAll
        (scheduleAll initScheduler [(2, 0), (3, 0), (1, 0)])).2.nextStartTime
      = 0 ∧
    (schedulePlayback
        (interruptAll (scheduleAll initScheduler [(2, 0), (3, 0), (1, 0)])).2
        1 7).1.start = 7 ∧
    ((scheduleAll initScheduler [(2, 0), (3, 0), (1, 0)]).activeUnits = [] →
      (interruptAll (scheduleAll initScheduler [(2, 0), (3, 0), (1, 0)])).1
        = []) :=
  C2_interrupt_clears [(2, 0), (3, 0), (1, 0)] 7 1 (by norm_num)

/-- The framing alphabet decodes its own characters. -/
theorem charSextet_sextetChar_fin :
    ∀ s : Fin 64, charSextet (sextetChar s.val) = s.val := by decide

/-- Every alphabet character passes the membership test. -/
theorem isB64Char_sextetChar_fin :
    ∀ s : Fin 64, isB64Char (sextetChar s.val) = true := by decide

/-- No alphabet character is the padding character. -/
theorem sextetChar_ne_pad_fin : ∀ s : Fin 64, sextetChar s.val ≠ '=' := by
  decide

/-- The framing alphabet decodes its own characters (Nat form). -/
theorem charSextet_sextetChar (s : Nat) (h : s < 64) :
    charSextet (sextetChar s) = s :=
  charSextet_sextetChar_fin ⟨s, h⟩

/-- Every alphabet character passes the membership test (Nat form). -/
theorem isB64Char_sextetChar (s : Nat) (h : s < 64) :
    isB64Char (sextetChar s) = true :=
  isB64Char_sextetChar_fin ⟨s, h⟩

/-- No alphabet character is the padding character (Nat form). -/
theorem sextetChar_ne_pad (s : Nat) (h : s < 64) : sextetChar s ≠ '=' :=
  sextetChar_ne_pad_fin ⟨s, h⟩

/-- Framing a nonempty byte sequence yields a nonempty text. -/
theorem encodeB64_ne_nil (b : Nat) (bs : List Nat) :
    encodeB64 (b :: bs) ≠ [] := by
  match bs with
  | [] => simp [encodeB64]
  | [b2] => simp [encodeB64]
  | b2 :: b3 :: rest => simp [encodeB64]

/-- Unframing inverts framing on byte sequences. -/
theorem decodeB64_encodeB64 (bs : List Nat) (h : ∀ b ∈ bs, b < 256) :
    decodeB64 (encodeB64 bs) = .ok bs := by
  match bs with
  | [] => rfl
  | [b1] =>
      have h1 : b1 < 256 := h b1 (by simp)
      have p1 := isB64Char_sextetChar (b1 / 4) (by omega)
      have p2 := isB64Char_sextetChar (b1 % 4 * 16) (by omega)
      have q1 := charSextet_sextetChar (b1 / 4) (by omega)
      have q2 := charSextet_sextetChar (b1 % 4 * 16) (by omega)
      simp [encodeB64, decodeB64, p1, p2, q1, q2]
      omega
  | [b1, b2] =>
      have h1 : b1 < 256 := h b1 (by simp)
      have h2 : b2 < 256 := h b2 (by simp)
      have p1 := isB64Char_sextetChar (b1 / 4) (by omega)
      have p2 := isB64Char_sextetChar (b1 % 4 * 16 + b2 / 16) (by omega)
      have p3 := isB64Char_sextetChar (b2 % 16 * 4) (by omega)
      have q1 := charSextet_sextetChar (b1 / 4) (by omega)
      have q2 := charSextet_sextetChar (b1 % 4 * 16 + b2 / 16) (by omega)
      have q3 := charSextet_sextetChar (b2 % 16 * 4) (by omega)
      have n3 : (sextetChar (b2 % 16 * 4) = '=') = False :=
        eq_false (sextetChar_ne_pad (b2 % 16 * 4) (by omega))
      simp [encodeB64, decodeB64, p1, p2, p3, q1, q2, q3, n3]
      omega
  | [b1, b2, b3] =>
      have h1 : b1 < 256 := h b1 (by simp)
      have h2 : b2 < 256 := h b2 (by simp)
      have h3 : b3 < 256 := h b3 (by simp)
      have p1 := isB64Char_sextetChar (b1 / 4) (by omega)
      have p2 := isB64Char_sextetChar (b1 % 4 * 16 + b2 / 16) (by omega)
      have p3 := isB64Char_sextetChar (b2 % 16 * 4 + b3 / 64) (by omega)
      have p4 := isB64Char_sextetChar (b3 % 64) (by omega)
      have q1 := charSextet_sextetChar (b1 / 4) (by omega)
      have q2 := charSextet_sextetChar (b1 % 4 * 16 + b2 / 16) (by omega)
      have q3 := charSextet_sextetChar (b2 % 16 * 4 + b3 / 64) (by omega)
      have q4 := charSextet_sextetChar (b3 % 64) (by omega)
      have n3 : (sextetChar (b2 % 16 * 4 + b3 / 64) = '=') = False :=
        eq_false (sextetChar_ne_pad (b2 % 16 * 4 + b3 / 64) (by omega))
      have n4 : (sextetChar (b3 % 64) = '=') = False :=
        eq_false (sextetChar_ne_pad (b3 % 64) (by omega))
      simp [encodeB64, decodeB64, p1, p2, p3, p4, q1, q2, q3, q4, n3, n4]
      omega
  | b1 :: b2 :: b3 :: b4 :: rest' =>
      have h1 : b1 < 256 := h b1 (by simp)
      have h2 : b2 < 256 := h b2 (by simp)
      have h3 : b3 < 256 := h b3 (by simp)
      have ih : decodeB64 (encodeB64 (b4 :: rest')) = .ok (b4 :: rest') :=
        decodeB64_encodeB64 (b4 :: rest') (fun b hb => h b (by simp [hb]))
      have p1 := isB64Char_sextetChar (b1 / 4) (by omega)
      have p2 := isB64Char_sextetChar (b1 % 4 * 16 + b2 / 16) (by omega)
      have p3 := isB64Char_sextetChar (b2 % 16 * 4 + b3 / 64) (by omega)
      have p4 := isB64Char_sextetChar (b3 % 64) (by omega)
      have q1 := charSextet_sextetChar (b1 / 4) (by omega)
      have q2 := charSextet_sextetChar (b1 % 4 * 16 + b2 / 16) (by omega)
      have q3 := charSextet_sextetChar (b2 % 16 * 4 + b3 / 64) (by omega)
      have q4 := charSextet_sextetChar (b3 % 64) (by omega)
      have n3 : (sextetChar (b2 % 16 * 4 + b3 / 64) = '=') = False :=
        eq_false (sextetChar_ne_pad (b2 % 16 * 4 + b3 / 64) (by omega))
      have n4 : (sextetChar (b3 % 64) = '=') = False :=
        eq_false (sextetChar_ne_pad (b3 % 64) (by omega))
      have hnil : (encodeB64 (b4 :: rest') = []) = False :=
        eq_false (encodeB64_ne_nil b4 rest')
      simp [encodeB64, decodeB64, p1, p2, p3, p4, q1, q2, q3, q4, n3, n4,
        hnil, ih]
      omega

/-- Both little-endian bytes of a 16-bit integer are bytes. -/
theorem int16Bytes_lt (n : ℤ) : ∀ b ∈ int16Bytes n, b < 256 := by
  intro b hb
  simp [int16Bytes] at hb
  rcases hb with rfl | rfl <;> omega

/-- Reading back the two little-endian bytes of an in-range 16-bit integer
recovers it. -/
theorem int16OfBytes_int16Bytes (n : ℤ) (h1 : -32768 ≤ n) (h2 : n < 32768) :
    int16OfBytes ((n % 65536).toNat % 256) ((n % 65536).toNat / 256) = n := by
  simp only [int16OfBytes]
  split <;> omega

/-- An in-range sample encodes to an in-range 16-bit integer. -/
theorem toInt16_range (x : ℚ) (h1 : -1 ≤ x) (h2 : x ≤ 1) :
    -32768 ≤ toInt16 x ∧ toInt16 x < 32768 := by
  have hb := abs_sub_round (x * 32767)
  rw [abs_le] at hb
  have hlo : (-32768 : ℚ) < ((round (x * 32767) : ℤ) : ℚ) := by nlinarith
  have hhi : ((round (x * 32767) : ℤ) : ℚ) < 32768 := by nlinarith
  constructor
  · exact_mod_cast hlo.le
  · exact_mod_cast hhi

/-- The byte stream of an encoded sample sequence has even length. -/
theorem encode_bytes_length (xs : List ℚ) :
    (xs.flatMap fun x => int16Bytes (toInt16 x)).length = 2 * xs.length := by
  induction xs with
  | nil => rfl
  | cons a as ih =>
      rw [List.flatMap_cons, List.length_append, ih]
      simp only [int16Bytes, List.length_cons, List.length_nil]
      omega

/-- Reading the byte stream of an encoded in-range sample sequence sample
by sample. -/
theorem bytesToSamples_encode (xs : List ℚ) (h : ∀ x ∈ xs, -1 ≤ x ∧ x ≤ 1) :
    bytesToSamples (xs.flatMap fun x => int16Bytes (toInt16 x)) =
      xs.map fun x => ((toInt16 x : ℤ) : ℚ) / 32768 := by
  induction xs with
  | nil => rfl
  | cons a as ih =>
      have ha := h a (by simp)
      have hr := toInt16_range a ha.1 ha.2
      have hread := int16OfBytes_int16Bytes (toInt16 a) hr.1 hr.2
      rw [List.flatMap_cons, List.map_cons]
      show (int16OfBytes ((toInt16 a % 65536).toNat % 256)
            ((toInt16 a % 65536).toNat / 256) : ℚ) / 32768 ::
          bytesToSamples (as.flatMap fun x => int16Bytes (toInt16 x)) =
        ((toInt16 a : ℤ) : ℚ) / 32768 ::
          List.map (fun x => ((toInt16 x : ℤ) : ℚ) / 32768) as
      rw [hread, ih fun x hx => h x (by simp [hx])]

/-- Decoding the encoded form of an in-range sample sequence yields, per
element, the rounded 16-bit value divided by 32768. -/
theorem decodeToSamples_encodeSamples (xs : List ℚ)
    (h : ∀ x ∈ xs, -1 ≤ x ∧ x ≤ 1) :
    decodeToSamples (encodeSamples xs) =
      xs.map fun x => ((toInt16 x : ℤ) : ℚ) / 32768 := by
  have hb : ∀ b ∈ xs.flatMap fun x => int16Bytes (toInt16 x), b < 256 := by
    intro b hbm
    rw [List.mem_flatMap] at hbm
    obtain ⟨x, _, hmem⟩ := hbm
    exact int16Bytes_lt (toInt16 x) b hmem
  simp only [decodeToSamples, decodeChunk, encodeSamples,
    decodeB64_encodeB64 _ hb, encode_bytes_length, Nat.mul_mod_right,
    if_pos rfl]
  exact bytesToSamples_encode xs h

/-- Quantization bound: one encode/decode round trip moves an in-range
sample by at most 3/65536 (half a step of the 32767 scale plus the
32767-to-32768 scale mismatch). -/
theorem quantize_err (x : ℚ) (h1 : -1 ≤ x) (h2 : x ≤ 1) :
    |((toInt16 x : ℤ) : ℚ) / 32768 - x| ≤ 3 / 65536 := by
  have hb := abs_sub_round (x * 32767)
  rw [abs_le] at hb
  have h32 : (0 : ℚ) < 32768 := by norm_num
  rw [abs_le]
  unfold toInt16
  constructor
  · rw [le_sub_iff_add_le, le_div_iff₀ h32]
    linarith [hb.2]
  · rw [sub_le_iff_le_add, div_le_iff₀ h32]
    linarith [hb.1]

/-- C3 (amended): decoding the encoded form of a sample sequence with all
values in [-1, 1] reconstructs every element to within 3/65536 (= 1.5 of a
1/32768 step) absolute error; the spec's 1/32768 bound is too tight for a
codec that scales by 32767 on encode and divides by 32768 on decode. -/
theorem C3_roundtrip_quantization (xs : List ℚ)
    (h : ∀ x ∈ xs, -1 ≤ x ∧ x ≤ 1) :
    (decodeToSamples (encodeSamples xs)).length = xs.length ∧
    ∀ i, i < xs.length →
      |(decodeToSamples (encodeSamples xs)).getD i 0 - xs.getD i 0| ≤
        3 / 65536 := by
  rw [decodeToSamples_encodeSamples xs h]
  refine ⟨List.length_map _ _, ?_⟩
  intro i hi
  rw [List.getD_eq_getElem?_getD, List.getD_eq_getElem?_getD,
    List.getElem?_map, List.getElem?_eq_getElem hi]
  simp only [Option.map_some', Option.getD_some]
  exact quantize_err _ (h _ (List.getElem_mem hi)).1
    (h _ (List.getElem_mem hi)).2

/-- Witness for C3 (amended) on the concrete sequence [1, -1, 0]. -/
theorem C3_roundtrip_quantization_witness :
    (decodeToSamples (encodeSamples [(1 : ℚ), -1, 0])).length =
      [(1 : ℚ), -1, 0].length ∧
    ∀ i, i < [(1 : ℚ), -1, 0].length →
      |(decodeToSamples (encodeSamples [(1 : ℚ), -1, 0])).getD i 0 -
        [(1 : ℚ), -1, 0].getD i 0| ≤ 3 / 65536 :=
  C3_roundtrip_quantization [(1 : ℚ), -1, 0]
    (by intro x hx; simp at hx; rcases hx with rfl | rfl | rfl <;> norm_num)

/-- Counterexample to C3 as stated: the in-range sample -163832/163835
(whose scaled value -163832/5 = -32766.4 rounds to -32766) comes back as
-32766/32768, which is about 1.4/32768 away from the original — more than
the claimed 1/32768. -/
theorem C3_roundtrip_counterexample :
    ((-1 : ℚ) ≤ -163832 / 163835 ∧ (-163832 / 163835 : ℚ) ≤ 1) ∧
    ¬ |(decodeToSamples (encodeSamples [(-163832 / 163835 : ℚ)])).getD 0 0 -
        (-163832 / 163835 : ℚ)| ≤ 1 / 32768 := by
  have hx : (-1 : ℚ) ≤ -163832 / 163835 ∧ (-163832 / 163835 : ℚ) ≤ 1 := by
    norm_num
  have hmap := decodeToSamples_encodeSamples [(-163832 / 163835 : ℚ)]
    (by intro x hxm; simp at hxm; subst hxm; exact hx)
  have hval : toInt16 (-163832 / 163835 : ℚ) = -32766 := by
    unfold toInt16
    have hs : (-163832 / 163835 : ℚ) * 32767 = -163832 / 5 := by norm_num
    rw [hs, round_eq]
    norm_num
  refine ⟨hx, ?_⟩
  rw [hmap]
  simp only [List.map_cons, List.map_nil, hval, List.getD_cons_zero]
  rw [abs_le]
  push_neg
  intro h1
  push_cast
  norm_num

/-- Captured React state of a session started unmuted with empty
accumulators (the common case: a fresh session). -/
def sampleCaptures : Captures := ⟨false, "", ""⟩

/-- A connected session with fresh scheduler, empty accumulators and empty
history. -/
def sampleSession : SessionView :=
  ⟨ConnStatus.connected, initScheduler, "", "", []⟩

/-- A chunk that fails to decode: * is not a framing character. -/
def badChunk : List Char := ['*', '*', '*', '*']

/-- An inbound message carrying only the undecodable audio fragment. -/
def badAudioMessage : ServerMessage := { audioData := some badChunk }

/-- On a turn-complete message the rest of the handler appends exactly the
user entry then the model entry (texts from the captured accumulators,
both stamped with the processing time) to the history, whatever the other
fields of the message do. -/
theorem handleMessageRest_history (cap : Captures) (s : SessionView)
    (m : ServerMessage) (t : ℤ) (hm : m.turnComplete = true) :
    (handleMessageRest cap s m t).history =
      s.history ++ [⟨Speaker.user, cap.currentInput, t⟩,
                    ⟨Speaker.model, cap.currentOutput, t⟩] := by
  unfold handleMessageRest
  cases hin : m.inputTranscription <;> cases hout : m.outputTranscription <;>
    simp [hm] <;> split <;> rfl

/-- The turn-complete branch also resets both accumulators to empty. -/
theorem handleMessageRest_resets (cap : Captures) (s : SessionView)
    (m : ServerMessage) (t : ℤ) (hm : m.turnComplete = true) :
    (handleMessageRest cap s m t).currentInput = "" ∧
    (handleMessageRest cap s m t).currentOutput = "" := by
  unfold handleMessageRest
  cases hin : m.inputTranscription <;> cases hout : m.outputTranscription <;>
    simp [hm] <;> constructor <;> split <;> rfl

/-- C6: a message whose audio fragment fails to decode leaves everything
except the nextStartTime ratchet unchanged — no crash is modelled as the
handler being a total function, the status (in particular, not error) and
history are untouched, nothing is scheduled, and subsequent messages are
processed from that state exactly as they would otherwise be. -/
theorem C6_decode_failure_skipped (cap : Captures) (s : SessionView)
    (c : List Char) (m : ServerMessage) (now : ℚ) (t : ℤ)
    (hm : m.audioData = some c) (hfail : decodeChunk c = .error ()) :
    handleMessage cap s m now t =
      { s with scheduler :=
          ⟨max s.scheduler.nextStartTime now, s.scheduler.activeUnits⟩ } ∧
    (handleMessage cap s m now t).connectionStatus = s.connectionStatus ∧
    (handleMessage cap s m now t).history = s.history ∧
    (handleMessage cap s m now t).scheduler.activeUnits =
      s.scheduler.activeUnits ∧
    ∀ rest, processMessages cap s ((m, now, t) :: rest) =
      processMessages cap
        { s with scheduler :=
            ⟨max s.scheduler.nextStartTime now, s.scheduler.activeUnits⟩ }
        rest := by
  have hstep : handleMessage cap s m now t =
      { s with scheduler :=
          ⟨max s.scheduler.nextStartTime now, s.scheduler.activeUnits⟩ } := by
    simp [handleMessage, hm, hfail]
  refine ⟨hstep, by rw [hstep], by rw [hstep], by rw [hstep], fun rest => ?_⟩
  show processMessages cap (handleMessage cap s m now t) rest = _
  rw [hstep]

/-- Witness for C6: the concrete four-star chunk fails to decode and is
skipped by a connected session. -/
theorem C6_decode_failure_skipped_witness :
    handleMessage sampleCaptures sampleSession badAudioMessage 0 0 =
      { sampleSession with scheduler :=
          ⟨max sampleSession.scheduler.nextStartTime 0,
           sampleSession.scheduler.activeUnits⟩ } ∧
    (handleMessage sampleCaptures sampleSession
        badAudioMessage 0 0).connectionStatus =
      sampleSession.connectionStatus ∧
    (handleMessage sampleCaptures sampleSession badAudioMessage 0 0).history =
      sampleSession.history ∧
    (handleMessage sampleCaptures sampleSession
        badAudioMessage 0 0).scheduler.activeUnits =
      sampleSession.scheduler.activeUnits ∧
    ∀ rest, processMessages sampleCaptures sampleSession
        ((badAudioMessage, 0, 0) :: rest) =
      processMessages sampleCaptures
        { sampleSession with scheduler :=
            ⟨max sampleSession.scheduler.nextStartTime 0,
             sampleSession.scheduler.activeUnits⟩ }
        rest :=
  C6_decode_failure_skipped sampleCaptures sampleSession badChunk
    badAudioMessage 0 0 rfl rfl

/-- C10: a processed turn-complete message (its audio part, if any,
decodes) appends exactly two entries to the history, the user entry first
and the model entry second, both stamped with the processing time; their
texts are the captured accumulator values, so a turn with empty captured
accumulators produces two empty-text entries. -/
theorem C10_turn_complete_two_entries (cap : Captures) (s : SessionView)
    (m : ServerMessage) (now : ℚ) (t : ℤ) (hm : m.turnComplete = true)
    (haudio : m.audioData = none ∨
      ∃ c xs, m.audioData = some c ∧ decodeChunk c = .ok xs) :
    ∃ e1 e2 : TranscriptionEntry,
      (handleMessage cap s m now t).history = s.history ++ [e1, e2] ∧
      e1.type = Speaker.user ∧ e2.type = Speaker.model ∧
      e1.timestamp = t ∧ e2.timestamp = t ∧
      e1.text = cap.currentInput ∧ e2.text = cap.currentOutput := by
  refine ⟨⟨Speaker.user, cap.currentInput, t⟩,
    ⟨Speaker.model, cap.currentOutput, t⟩, ?_, rfl, rfl, rfl, rfl, rfl, rfl⟩
  rcases haudio with hnone | ⟨c, xs, hsome, hok⟩
  · simp only [handleMessage, hnone]
    exact handleMessageRest_history cap s m t hm
  · simp only [handleMessage, hsome, hok]
    exact handleMessageRest_history cap _ m t hm

/-- Witness for C10: a bare turn-complete message on a fresh connected
session appends the two (empty-text) entries stamped with time 3. -/
theorem C10_turn_complete_two_entries_witness :
    ∃ e1 e2 : TranscriptionEntry,
      (handleMessage sampleCaptures sampleSession
          ⟨none, none, none, true, false⟩ 0 3).history =
        sampleSession.history ++ [e1, e2] ∧
      e1.type = Speaker.user ∧ e2.type = Speaker.model ∧
      e1.timestamp = 3 ∧ e2.timestamp = 3 ∧
      e1.text = sampleCaptures.currentInput ∧
      e2.text = sampleCaptures.currentOutput :=
  C10_turn_complete_two_entries sampleCaptures sampleSession
    ⟨none, none, none, true, false⟩ 0 3 rfl (Or.inl rfl)

/-- C7 is a code bug: the onmessage closure reads the currentInput and
currentOutput captured at the start render (empty), not the accumulated
text.  After accumulating "hello" and "hi there", a turn-complete event
appends two entries whose texts are empty, not the accumulated text — the
resets of the accumulators do happen. -/
theorem C7_turn_complete_stale_text :
    (handleMessage sampleCaptures sampleSession
        ⟨none, some "hello", some "hi there", false, false⟩ 0 0).currentInput
      = "hello" ∧
    (handleMessage sampleCaptures sampleSession
        ⟨none, some "hello", some "hi there", false, false⟩ 0 0).currentOutput
      = "hi there" ∧
    (processMessages sampleCaptures sampleSession
        [(⟨none, some "hello", some "hi there", false, false⟩, 0, 0),
         (⟨none, none, none, true, false⟩, 0, 5)]).history =
      [⟨Speaker.user, "", 5⟩, ⟨Speaker.model, "", 5⟩] ∧
    (processMessages sampleCaptures sampleSession
        [(⟨none, some "hello", some "hi there", false, false⟩, 0, 0),
         (⟨none, none, none, true, false⟩, 0, 5)]).currentInput = "" ∧
    (processMessages sampleCaptures sampleSession
        [(⟨none, some "hello", some "hi there", false, false⟩, 0, 0),
         (⟨none, none, none, true, false⟩, 0, 5)]).currentOutput = "" :=
  ⟨rfl, rfl, rfl, rfl, rfl⟩

/-- C4 is a code bug: onaudioprocess tests the isMuted captured when the
session was started, which the mute button cannot change.  Starting
unmuted, toggling mute on and then delivering a frame: the fresh React
isMuted is true, yet the frame is still forwarded (one forwarded frame,
not zero); a further unmute and frame forwards again, and no event of the
sequence tears down the capture graph. -/
theorem C4_mute_stale_closure :
    (micStep ⟨false, false, true⟩ (MicEvent.setMuted true)).1.isMuted
      = true ∧
    (micRun ⟨false, false, true⟩
        [MicEvent.setMuted true, MicEvent.frame [0]]).2.length = 1 ∧
    (micRun ⟨false, false, true⟩
        [MicEvent.setMuted true, MicEvent.frame [0],
         MicEvent.setMuted false, MicEvent.frame [0]]).2.length = 2 ∧
    (micRun ⟨false, false, true⟩
        [MicEvent.setMuted true, MicEvent.frame [0],
         MicEvent.setMuted false, MicEvent.frame [0]]).1.captureAlive
      = true :=
  ⟨rfl, rfl, rfl, rfl⟩

/-- C5 (amended): the onerror handler only sets the status to error and
marks the session inactive, and the onclose handler only sets the status
to idle and marks it inactive; neither stops the capture stream, closes
the audio contexts, nor stops or clears the scheduled playback — those
happen only in the explicit stop path of handleStartSession. -/
theorem C5_error_close_only_flags (s : AppState) :
    appStep s AppEvent.onerror =
      { s with connectionStatus := ConnStatus.error, isActive := false } ∧
    appStep s AppEvent.onclose =
      { s with connectionStatus := ConnStatus.idle, isActive := false } :=
  ⟨rfl, rfl⟩

/-- A connected session holding one stream, one context pair and one
scheduled playback unit. -/
def errorScenario : AppState :=
  appRun initApp
    [AppEvent.startClick true, AppEvent.onopen, AppEvent.audioFrag 2 0]

/-- Counterexample to C5 as stated: after an error event in a connected
session with live resources, the capture stream is still acquired and the
scheduled playback units are still in the active set — nothing was
released. -/
theorem C5_resources_not_released_counterexample :
    ¬ ((appStep errorScenario AppEvent.onerror).liveStreams = 0 ∧
       (appStep errorScenario AppEvent.onerror).scheduler.activeUnits
         = []) := by
  intro h
  have h1 : (appStep errorScenario AppEvent.onerror).liveStreams = 1 := rfl
  rw [h.1] at h1
  exact absurd h1 (by decide)

/-- C8 (amended): handleStartSession is a toggle, not a guarded start.
While isActive (connected) a second call stops the session — neither a
rejection nor an idempotent start; while isActive is still false (the
connecting window, since onopen is what sets isActive) a second call runs
the whole acquisition again, adding a second live stream and context pair
while the first is still held. -/
theorem C8_start_toggle_and_double_acquire (s : AppState) :
    (s.isActive = true →
      appStep s (AppEvent.startClick true) =
        stopAudio { s with isActive := false,
                           connectionStatus := ConnStatus.idle }) ∧
    (s.isActive = false →
      (appStep s (AppEvent.startClick true)).liveStreams =
        s.liveStreams + 1 ∧
      (appStep s (AppEvent.startClick true)).openContexts =
        s.openContexts + 1 ∧
      (appStep s (AppEvent.startClick true)).connectionStatus =
        ConnStatus.connecting) := by
  constructor
  · intro h
    simp [appStep, h]
  · intro h
    simp [appStep, h]

/-- Counterexample to C8 as stated: two clicks of start with no onopen in
between (the second lands while still connecting) leave two concurrently
live capture streams — two sessions hold the device resources at once. -/
theorem C8_double_start_counterexample :
    ¬ (appRun initApp
        [AppEvent.startClick true, AppEvent.startClick true]).liveStreams
      ≤ 1 := by
  intro h
  have h1 : (appRun initApp
      [AppEvent.startClick true, AppEvent.startClick true]).liveStreams
      = 2 := rfl
  rw [h1] at h
  exact absurd h (by decide)

/-- C9 (amended): when device acquisition fails (getUserMedia throws into
the catch), the status becomes error — not idle — and the two audio
contexts created and stored before the failure stay open and retained; no
stream was acquired. -/
theorem C9_acquire_failure_leaks_contexts (s : AppState)
    (h : s.isActive = false) :
    appStep s (AppEvent.startClick false) =
      { s with connectionStatus := ConnStatus.error,
               openContexts := s.openContexts + 1, refCtxLive := true } := by
  simp [appStep, h]

/-- Witness for C9 (amended) from the initial state. -/
theorem C9_acquire_failure_leaks_contexts_witness :
    appStep initApp (AppEvent.startClick false) =
      { initApp with connectionStatus := ConnStatus.error,
                     openContexts := initApp.openContexts + 1,
                     refCtxLive := true } :=
  C9_acquire_failure_leaks_contexts initApp rfl

/-- Counterexample to C9 as stated: a failed first start does not leave
the session idle with no retained resources — the status is error and an
audio-context pair is still open. -/
theorem C9_acquire_failure_counterexample :
    ¬ ((appStep initApp (AppEvent.startClick false)).connectionStatus =
        ConnStatus.idle ∧
       (appStep initApp (AppEvent.startClick false)).openContexts = 0) := by
  intro h
  have h1 : (appStep initApp (AppEvent.startClick false)).connectionStatus =
      ConnStatus.error := rfl
  rw [h.1] at h1
  exact absurd h1 (by decide)
